import Mathlib

/-!
Verification of `@heisenware/storage` (`src/Storage.js`), a filesystem-backed
JSON key-value store. The source is shallowly embedded: JSON documents become
an inductive `Json` type, the on-disk directory becomes an association list
from file path to file content, the process-wide `Storage.files` map becomes
an association list from directory to per-directory index, and the fallible
write/delete jobs return `Except` values. The per-path operation queue of
`Storage._runQueue` (concurrency 1, autostart) is modelled by lists of
submitted write operations together with the set of execution orders whose
per-path restriction preserves submission order.
-/

namespace Storage

/-- JSON values as produced by `JSON.parse`. Numbers are modelled as integers
(the records the engine stores are opaque payloads; no claim depends on
non-integer numerics). -/
inductive Json where
  | null : Json
  | bool (b : Bool) : Json
  | num (n : Int) : Json
  | str (s : String) : Json
  | arr (elements : List Json) : Json
  | obj (fields : List (String × Json)) : Json

/-- JavaScript truthiness of a parsed JSON value, as tested by
`item?.value ? item.value : null` and `if (item?.key)` in the source:
`null`, `false`, `0` and the empty string are falsy; arrays and objects are
always truthy. -/
def Json.truthy : Json → Bool
  | .null => false
  | .bool b => b
  | .num n => n != 0
  | .str s => s != ""
  | .arr _ => true
  | .obj _ => true

/-- Lookup in an association list, first match wins (JS object property
access: our record objects carry no duplicate keys). -/
def assocLookup {α : Type} : List (String × α) → String → Option α
  | [], _ => none
  | (k, v) :: rest, key => if k = key then some v else assocLookup rest key

/-- JS object property assignment `m[key] = v`: replace in place when the key
exists, otherwise append (JS objects keep insertion order). -/
def assocInsert {α : Type} : List (String × α) → String → α → List (String × α)
  | [], key, v => [(key, v)]
  | (k, w) :: rest, key, v =>
      if k = key then (k, v) :: rest else (k, w) :: assocInsert rest key v

/-- JS `delete m[key]`. -/
def assocErase {α : Type} : List (String × α) → String → List (String × α)
  | [], _ => []
  | (k, w) :: rest, key => if k = key then rest else (k, w) :: assocErase rest key

/-- Optional-chaining property access `item?.name`: a field of an object,
`undefined` (here `none`) on everything else. -/
def Json.getField : Json → String → Option Json
  | .obj fields, name => assocLookup fields name
  | _, _ => none

/-- Content of one file on disk: a JSON document, or bytes on which
`JSON.parse` fails (this also stands for unreadable files: `_readFile`
collapses every read-side failure into the same caught error). -/
inductive FileContent where
  | json (j : Json) : FileContent
  | raw (s : String) : FileContent

/-- The disk: file path to file content. -/
abbrev Disk := List (String × FileContent)

/-- One directory's index, `Storage.files[dir]`: file base name to resolved
file path. -/
abbrev FilesMap := List (String × String)

/-- The process-wide state: `Storage.files` (directory path to that
directory's index) together with the disk the engine operates on. -/
structure StorageState where
  filesMap : List (String × FilesMap)
  disk : Disk

/-- `TMP_MARKER` from the source: the single character `T`. -/
def TMP_MARKER : Char := 'T'

/-- JS `name.includes(marker)` for the single-character marker: does the
string contain the character? -/
def containsChar (s : String) (c : Char) : Bool :=
  s.data.any (fun x => x == c)

/-- One step of scanning for the last path component: a slash restarts the
component, any other character extends it. -/
def componentStep (acc : List Char) (c : Char) : List Char :=
  if c = '/' then [] else acc ++ [c]

/-- `path.basename`: the last `/`-separated component of a path. -/
def basename (p : String) : String :=
  ⟨p.data.foldl componentStep []⟩

/-- `path.join(a, b)` for the slash-free segments the engine supplies:
joining the empty segment is the identity. -/
def joinPath (a b : String) : String :=
  if b = "" then a else a ++ "/" ++ b

/-- The hexadecimal digit alphabet of `crypto`'s `digest('hex')`. -/
def hexChar (n : Nat) : Char :=
  match n with
  | 0 => '0' | 1 => '1' | 2 => '2' | 3 => '3' | 4 => '4' | 5 => '5'
  | 6 => '6' | 7 => '7' | 8 => '8' | 9 => '9' | 10 => 'a' | 11 => 'b'
  | 12 => 'c' | 13 => 'd' | 14 => 'e' | _ => 'f'

/-- Fixed-width lowercase hexadecimal rendering, least significant digit
last. -/
def toHex : Nat → Nat → List Char
  | 0, _ => []
  | w + 1, n => toHex w (n / 16) ++ [hexChar (n % 16)]

/-- A deterministic 64-bit string hash (djb2-style), standing for the MD5
computation delegated to Node's `crypto` library. -/
def strHash (s : String) : Nat :=
  s.data.foldl (fun h c => (h * 33 + c.toNat) % (2 ^ 64)) 5381

/-- Modelled from the spec: `Storage._md5` delegates the digest to Node's
`crypto` library, which is not part of this repository; per the spec,
`digest(key) -> fileName` is a "deterministic, collision-resistant mapping
from an arbitrary string key to a filesystem-safe name (a fixed-length hash
encoding)". As in the source, the digest is rendered as a 32-character
lowercase hexadecimal string. -/
def md5 (key : String) : String :=
  ⟨toHex 32 (strHash key)⟩

/-- The on-disk record envelope `{ key, value }` written by `setItem`. -/
def record (key : String) (value : Json) : Json :=
  .obj [("key", .str key), ("value", value)]

/-- The queued job of `_readFile`: read the file and `JSON.parse` it; every
failure (missing file, read error, parse error) is caught, logged and turned
into `null`. -/
def readFile (disk : Disk) (path : String) : Json :=
  match assocLookup disk path with
  | some (.json j) => j
  | _ => Json.null

/-- `Storage.files[dir][name]`: the index lookup both `getItem` and
`removeItem` begin with. -/
def lookupIndex (st : StorageState) (dir name : String) : Option String :=
  match assocLookup st.filesMap dir with
  | some files => assocLookup files name
  | none => none

/-- `getItem(key)`: look up `Storage.files[this._dir][md5(key)]`; absent
entry logs a warning and returns `null`; otherwise the queued read runs and
the result is `item?.value ? item.value : null`. -/
def getItem (st : StorageState) (dir key : String) : Json :=
  match lookupIndex st dir (md5 key) with
  | none => Json.null
  | some filePath =>
      let item := readFile st.disk filePath
      match item.getField "value" with
      | some v => if v.truthy then v else Json.null
      | none => Json.null

/-- Errors a queued job can reject with. `referenceError` is the JavaScript
`ReferenceError` raised when `_writeFile`'s catch block evaluates
`unlinkSync(pathTmp)`: `pathTmp` is a `const` declared inside the `try`
block and is not in scope in the catch block. `fsError` is a filesystem
promise rejection (such as `ENOENT` from `unlink`). -/
inductive JsError where
  | referenceError : JsError
  | fsError : JsError
deriving DecidableEq

/-- Fault injection for the atomic write of `_writeFile`: the temp-file
write and the rename each either succeed or fail. -/
inductive WriteOutcome where
  | ok : WriteOutcome
  | writeFailed : WriteOutcome
  | renameFailed : WriteOutcome
deriving DecidableEq

/-- The temporary sibling path `path + TMP_MARKER + uniquifier` built by
`_writeFile`; the random uniquifier is passed in explicitly. -/
def tmpPath (filePath suffix : String) : String :=
  filePath ++ "T" ++ suffix

/-- The queued job of `_writeFile`: write the serialized content to the
temporary sibling, then rename it over the final path. On either failure the
catch block logs and then evaluates `unlinkSync(pathTmp)`, which raises
`ReferenceError` (`pathTmp` is block-scoped to the `try`), so the job
rejects with that error and the temporary file — present when the rename
step failed — is never deleted. -/
def writeFileJob (disk : Disk) (filePath : String) (content : Json)
    (suffix : String) (outcome : WriteOutcome) : Disk × Except JsError Unit :=
  match outcome with
  | .ok =>
      let afterTmp := assocInsert disk (tmpPath filePath suffix) (.json content)
      (assocInsert (assocErase afterTmp (tmpPath filePath suffix)) filePath (.json content),
        .ok ())
  | .writeFailed => (disk, .error .referenceError)
  | .renameFailed =>
      (assocInsert disk (tmpPath filePath suffix) (.json content), .error .referenceError)

/-- `setItem(key, value, { folder })`: resolve the file path
`path.join(this._dir, folder, md5(key))`, run the queued atomic write of the
`{ key, value }` record, and only after it resolves set
`Storage.files[this._dir][md5(key)] = filePath`; a rejected write leaves the
index untouched and re-raises. -/
def setItem (st : StorageState) (dir key : String) (value : Json)
    (folder suffix : String) (outcome : WriteOutcome) :
    StorageState × Except JsError Unit :=
  let md5Key := md5 key
  let dirPath := joinPath dir folder
  let filePath := joinPath dirPath md5Key
  match writeFileJob st.disk filePath (record key value) suffix outcome with
  | (disk2, .ok _) =>
      let files := (assocLookup st.filesMap dir).getD []
      ({ filesMap := assocInsert st.filesMap dir (assocInsert files md5Key filePath),
         disk := disk2 }, .ok ())
  | (disk2, .error e) => ({ st with disk := disk2 }, .error e)

/-- The queued job of `_deleteFile`: `return unlink(path)` inside a
try/catch. The promise is returned without `await`, so a rejection bypasses
the catch block (which only guards synchronous throws) and the job rejects.
`unlink` rejects exactly when the path does not exist on disk. -/
def deleteFileJob (disk : Disk) (path : String) : Disk × Except JsError Unit :=
  match assocLookup disk path with
  | some _ => (assocErase disk path, .ok ())
  | none => (disk, .error .fsError)

/-- `removeItem(key)`: absent index entry logs a warning and resolves;
otherwise run the queued unlink and, only when it resolves, delete the index
entry. A rejected unlink propagates out of `removeItem` and leaves the index
entry in place. -/
def removeItem (st : StorageState) (dir key : String) :
    StorageState × Except JsError Unit :=
  match lookupIndex st dir (md5 key) with
  | none => (st, .ok ())
  | some filePath =>
      match deleteFileJob st.disk filePath with
      | (disk2, .ok _) =>
          let files := (assocLookup st.filesMap dir).getD []
          ({ filesMap := assocInsert st.filesMap dir (assocErase files (md5 key)),
             disk := disk2 }, .ok ())
      | (disk2, .error e) => ({ st with disk := disk2 }, .error e)

/-- `keys()`: for every path in `Object.values(Storage.files[this._dir])`,
read and parse the file (read failures resolve as `null`), keep `item.key`
when `item?.key` is truthy, and filter out the `null` results. The method
takes no folder argument and reads every file from disk. -/
def keysOp (st : StorageState) (dir : String) : List Json :=
  ((assocLookup st.filesMap dir).getD []).filterMap (fun entry =>
    let item := readFile st.disk entry.2
    match item.getField "key" with
    | some k => if k.truthy then some k else none
    | none => none)

/-- Is `path` strictly inside directory `dir`? -/
def isUnder (dir path : String) : Bool :=
  List.isPrefixOf (dir ++ "/").data path.data

/-- The `files` accumulator `_getDirectoryInfo` would rebuild over the disk
remaining after a wipe: every surviving file under the root whose base name
is free of the temporary marker, keyed by base name. (The `tree` metadata
component — inode, size, mtime — is environment data the index never uses.) -/
def rescanDisk (disk : Disk) (rootDir : String) : FilesMap :=
  disk.foldl (fun acc entry =>
    if isUnder rootDir entry.1 && !(containsChar (basename entry.1) TMP_MARKER)
    then assocInsert acc (basename entry.1) entry.1
    else acc) []

/-- `clear({ folder })`: `emptyDir(path.join(this._dir, folder))` deletes
every file under the resolved directory, then the source assigns the rescan
of `this._dir` to `Storage.files[dir]` — where `dir` is the *joined* path,
not `this._dir` —, so for a nonempty folder the instance's own index at
`this._dir` is never touched. -/
def clear (st : StorageState) (dir folder : String) : StorageState :=
  let d := joinPath dir folder
  let disk2 := st.disk.filter (fun entry => !(isUnder d entry.1))
  { filesMap := assocInsert st.filesMap d (rescanDisk disk2 dir),
    disk := disk2 }

mutual
/-- A directory tree as walked by `_getDirectoryInfo` at construction:
file leaves carry their content, directories their sequence of children
(as listed by `readdirSync`). -/
inductive DirTree where
  | file (name : String) (content : FileContent) : DirTree
  | dir (name : String) (children : DirForest) : DirTree

/-- A sequence of sibling directory entries. -/
inductive DirForest where
  | nil : DirForest
  | cons (t : DirTree) (rest : DirForest) : DirForest
end

/-- The `name` of a tree node, as `path.basename` yields it in the source. -/
def treeName : DirTree → String
  | .file n _ => n
  | .dir n _ => n

mutual
/-- The `files` accumulator (second component) of
`Storage._getDirectoryInfo(fullPath)`: a file whose name contains
`TMP_MARKER` is skipped, any other file is indexed by base name with no
decode attempt; directories are descended unconditionally. The returned
`tree` metadata (inode, size, mtime) is environment data not modelled. -/
def scanTree : String → DirTree → FilesMap → FilesMap
  | fullPath, .file name _, files =>
      if containsChar name TMP_MARKER then files else assocInsert files name fullPath
  | fullPath, .dir _ children, files => scanChildren fullPath children files

/-- The `children.map(child => _getDirectoryInfo(filename + '/' + child,
files))` walk: children are scanned left to right into the shared
accumulator. -/
def scanChildren : String → DirForest → FilesMap → FilesMap
  | _, .nil, files => files
  | dirPath, .cons t rest, files =>
      scanChildren dirPath rest (scanTree (dirPath ++ "/" ++ treeName t) t files)
end

/-- Modelled from the spec: the Watch/Sync layer is exercised by the tests
and documented in the README but absent from the source tree. Per spec §4.8,
an add/change event for a quiescent path: temporary-marker paths are ignored
unconditionally; otherwise decode the file and upsert the Index of every
instance sharing the directory, keyed by the embedded `key` (through the
file-name digest, which is how the source keys its index); decode failures
(including a missing or non-string `key` field) leave the Index unchanged. -/
def watchAddChange (st : StorageState) (dir path : String) : StorageState :=
  if containsChar (basename path) TMP_MARKER then st
  else
    match readFile st.disk path with
    | .obj fields =>
        match assocLookup fields "key" with
        | some (.str k) =>
            let files := (assocLookup st.filesMap dir).getD []
            { st with filesMap := assocInsert st.filesMap dir (assocInsert files (md5 k) path) }
        | _ => st
    | _ => st

/-- A successful write submitted to a path's operation queue: the target
file path and the record written there by the atomic temp-write-and-rename. -/
abbrev WriteOp := String × Json

/-- The subsequence of contents a list of queued writes directs at one path,
in list order. -/
def writesTo : List WriteOp → String → List Json
  | [], _ => []
  | (q, c) :: rest, p => if q = p then c :: writesTo rest p else writesTo rest p

/-- Execute a sequence of queued writes against the disk, one at a time in
the given order — the at-most-one-in-flight execution `_runQueue` provides. -/
def applyWrites (disk : Disk) : List WriteOp → Disk
  | [] => disk
  | (p, c) :: rest => applyWrites (assocInsert disk p (.json c)) rest

/-- The last element of a list, if any. -/
def lastOf {α : Type} : List α → Option α
  | [] => none
  | c :: rest =>
      match lastOf rest with
      | some x => some x
      | none => some c

theorem assocLookup_insert_self {α : Type} (m : List (String × α)) (k : String) (v : α) :
    assocLookup (assocInsert m k v) k = some v := by
  induction m with
  | nil => simp [assocInsert, assocLookup]
  | cons kv rest ih =>
      obtain ⟨k2, w⟩ := kv
      by_cases h : k2 = k
      · subst h
        simp [assocInsert, assocLookup]
      · simp [assocInsert, assocLookup, h, ih]

theorem assocLookup_insert_ne {α : Type} (m : List (String × α)) (k : String) (v : α)
    (k2 : String) (h : k ≠ k2) :
    assocLookup (assocInsert m k v) k2 = assocLookup m k2 := by
  induction m with
  | nil => simp [assocInsert, assocLookup, h]
  | cons kv rest ih =>
      obtain ⟨k3, w⟩ := kv
      by_cases h3 : k3 = k
      · subst h3
        simp [assocInsert, assocLookup, h]
      · simp [assocInsert, assocLookup, h3, ih]

theorem record_getField_value (k : String) (v : Json) :
    (record k v).getField "value" = some v := by
  simp [record, Json.getField, assocLookup]

theorem record_getField_key (k : String) (v : Json) :
    (record k v).getField "key" = some (.str k) := by
  simp [record, Json.getField, assocLookup]

theorem containsChar_eq_false_iff (s : String) (c : Char) :
    containsChar s c = false ↔ ∀ x ∈ s.data, x ≠ c := by
  simp [containsChar]

theorem hexChar_ne_T (n : Nat) : hexChar n ≠ 'T' := by
  unfold hexChar
  split <;> decide

theorem hexChar_ne_slash (n : Nat) : hexChar n ≠ '/' := by
  unfold hexChar
  split <;> decide

theorem toHex_chars (w : Nat) : ∀ n, ∀ c ∈ toHex w n, c ≠ 'T' ∧ c ≠ '/' := by
  induction w with
  | zero =>
      intro n c hc
      simp [toHex] at hc
  | succ w ih =>
      intro n c hc
      simp only [toHex, List.mem_append, List.mem_singleton] at hc
      rcases hc with hc | hc
      · exact ih _ c hc
      · subst hc
        exact ⟨hexChar_ne_T _, hexChar_ne_slash _⟩

theorem md5_not_contains_marker (key : String) :
    containsChar (md5 key) TMP_MARKER = false := by
  rw [containsChar_eq_false_iff]
  intro x hx
  exact (toHex_chars 32 (strHash key) x hx).1

theorem md5_no_slash (key : String) : ∀ x ∈ (md5 key).data, x ≠ '/' := by
  intro x hx
  exact (toHex_chars 32 (strHash key) x hx).2

theorem toHex_succ_ne_nil (w n : Nat) : toHex (w + 1) n ≠ [] := by
  simp [toHex]

theorem md5_ne_empty (key : String) : md5 key ≠ "" := by
  intro h
  have hd : (md5 key).data = [] := by rw [h]
  exact toHex_succ_ne_nil 31 (strHash key) hd

theorem foldl_componentStep_no_slash (ds : List Char) (h : ∀ c ∈ ds, c ≠ '/') :
    ∀ acc, ds.foldl componentStep acc = acc ++ ds := by
  induction ds with
  | nil =>
      intro acc
      simp
  | cons d rest ih =>
      intro acc
      have hd : d ≠ '/' := h d (List.mem_cons_self _ _)
      simp only [List.foldl_cons, componentStep, if_neg hd]
      rw [ih (fun c hc => h c (List.mem_cons_of_mem _ hc))]
      simp

theorem data_append (a b : String) : (a ++ b).data = a.data ++ b.data := rfl

theorem basename_append (a m : String) (h : ∀ c ∈ m.data, c ≠ '/') :
    basename (a ++ "/" ++ m) = m := by
  unfold basename
  rw [data_append, data_append]
  rw [List.foldl_append, List.foldl_append]
  have hslash : List.foldl componentStep (List.foldl componentStep [] a.data) ("/").data = [] := by
    show componentStep (List.foldl componentStep [] a.data) '/' = []
    simp [componentStep]
  rw [hslash, foldl_componentStep_no_slash m.data h []]
  rfl

theorem applyWrites_lookup (l : List WriteOp) (disk : Disk) (p : String) :
    assocLookup (applyWrites disk l) p =
      match lastOf (writesTo l p) with
      | some c => some (.json c)
      | none => assocLookup disk p := by
  induction l generalizing disk with
  | nil => rfl
  | cons op rest ih =>
      obtain ⟨q, c⟩ := op
      by_cases h : q = p
      · subst h
        simp only [applyWrites, writesTo, if_pos rfl]
        rw [ih]
        cases hw : lastOf (writesTo rest q) with
        | some x => simp [lastOf, hw]
        | none => simp [lastOf, hw, assocLookup_insert_self]
      · simp only [applyWrites, writesTo, if_neg h]
        rw [ih]
        cases hw : lastOf (writesTo rest p) with
        | some x => rfl
        | none => exact assocLookup_insert_ne disk q (.json c) p h

theorem lastOf_map {α β : Type} (f : α → β) (l : List α) :
    lastOf (l.map f) = (lastOf l).map f := by
  induction l with
  | nil => rfl
  | cons a rest ih =>
      simp only [List.map_cons, lastOf, ih]
      cases lastOf rest <;> rfl

mutual
theorem scanTree_lookup (fullPath : String) (t : DirTree) (files : FilesMap)
    (n p : String) (h : assocLookup (scanTree fullPath t files) n = some p) :
    assocLookup files n = some p ∨ containsChar n TMP_MARKER = false := by
  cases t with
  | file name c =>
      by_cases hm : containsChar name TMP_MARKER
      · rw [scanTree, if_pos hm] at h
        exact Or.inl h
      · rw [scanTree, if_neg hm] at h
        by_cases he : name = n
        · subst he
          exact Or.inr (by simpa using hm)
        · rw [assocLookup_insert_ne files name fullPath n he] at h
          exact Or.inl h
  | dir name children => exact scanChildren_lookup fullPath children files n p h

theorem scanChildren_lookup (dirPath : String) (ts : DirForest) (files : FilesMap)
    (n p : String) (h : assocLookup (scanChildren dirPath ts files) n = some p) :
    assocLookup files n = some p ∨ containsChar n TMP_MARKER = false := by
  cases ts with
  | nil => exact Or.inl h
  | cons t rest =>
      rw [scanChildren] at h
      rcases scanChildren_lookup dirPath rest _ n p h with h1 | h1
      · exact scanTree_lookup _ t files n p h1
      · exact Or.inr h1
end

/-- C1 (code bug): the claim says a failed `setItem` best-effort deletes the
temporary file, re-raises, and leaves the Index unchanged. On the concrete
failing input — a `setItem('k', 1)` whose rename step fails — the call does
reject and does leave the Index unchanged, but the temporary file is still on
disk: the catch block of `_writeFile` evaluates `unlinkSync(pathTmp)` with
`pathTmp` out of scope (it is `const` inside the `try` block), so a
`ReferenceError` replaces the original error before any unlink happens. -/
theorem setItem_rename_failure_bug :
    (setItem ⟨[("/d", [])], []⟩ "/d" "k" (.num 1) "" "abc" .renameFailed).2 =
        .error .referenceError
    ∧ assocLookup (setItem ⟨[("/d", [])], []⟩ "/d" "k" (.num 1) "" "abc" .renameFailed).1.disk
        (tmpPath (joinPath "/d" (md5 "k")) "abc") = some (.json (record "k" (.num 1)))
    ∧ (setItem ⟨[("/d", [])], []⟩ "/d" "k" (.num 1) "" "abc" .renameFailed).1.filesMap =
        [("/d", [])] :=
  ⟨rfl, rfl, rfl⟩

/-- C2 (counterexample): the round-trip fails for the JSON-serializable value
`0`: `setItem('k', 0)` followed by `getItem('k')` returns `null`, because
`getItem` returns `item?.value ? item.value : null` and `0` is falsy. -/
theorem roundtrip_falsy_counterexample :
    getItem (setItem ⟨[("/d", [])], []⟩ "/d" "k" (.num 0) "" "s" .ok).1 "/d" "k" = Json.null
    ∧ Json.null ≠ Json.num 0 :=
  ⟨rfl, fun h => Json.noConfusion h⟩

/-- C2 (amended): for every key and every JSON-serializable value that is
JavaScript-truthy or `null`, `setItem(k, v)` followed by `getItem(k)` with no
intervening operation on `k` returns a value deep-equal to `v`; a falsy
non-null value is read back as `null`. -/
theorem setItem_getItem_roundtrip (st : StorageState) (dir key : String) (v : Json)
    (folder suffix : String) (h : v.truthy = true ∨ v = Json.null) :
    getItem (setItem st dir key v folder suffix .ok).1 dir key = v := by
  have hstate : (setItem st dir key v folder suffix .ok).1 =
      { filesMap := assocInsert st.filesMap dir
          (assocInsert ((assocLookup st.filesMap dir).getD []) (md5 key)
            (joinPath (joinPath dir folder) (md5 key))),
        disk := assocInsert
          (assocErase
            (assocInsert st.disk
              (tmpPath (joinPath (joinPath dir folder) (md5 key)) suffix)
              (.json (record key v)))
            (tmpPath (joinPath (joinPath dir folder) (md5 key)) suffix))
          (joinPath (joinPath dir folder) (md5 key)) (.json (record key v)) } := rfl
  rw [hstate]
  simp only [getItem, lookupIndex, assocLookup_insert_self, readFile,
    record_getField_value]
  rcases h with h | h
  · rw [if_pos h]
  · subst h
    rfl

/-- C2 (witness): the amended round-trip at the concrete truthy value
`"x"`. -/
theorem setItem_getItem_roundtrip_witness :
    (Json.truthy (.str "x") = true ∨ Json.str "x" = Json.null)
    ∧ getItem (setItem ⟨[("/d", [])], []⟩ "/d" "k" (.str "x") "" "s" .ok).1 "/d" "k" =
        .str "x" :=
  ⟨Or.inl (by decide),
    setItem_getItem_roundtrip ⟨[("/d", [])], []⟩ "/d" "k" (.str "x") "" "s"
      (Or.inl (by decide))⟩

/-- C5 (code bug): the claim says `clear(folder)` purges from the Index every
key stored under the folder. On the concrete failing input — `setItem('a', 1,
folder 'f')` then `clear(folder 'f')` in directory `/d` — the file is deleted
from disk but the instance's index still maps `md5('a')` to the deleted path:
`clear` assigns the rescan to `Storage.files[path.join(this._dir, folder)]`
(`/d/f`), a key no reader consults, instead of `Storage.files[this._dir]`. -/
theorem clear_folder_stale_index_bug :
    lookupIndex (clear (setItem ⟨[("/d", [])], []⟩ "/d" "a" (.num 1) "f" "s" .ok).1 "/d" "f")
        "/d" (md5 "a") = some (joinPath (joinPath "/d" "f") (md5 "a"))
    ∧ assocLookup
        (clear (setItem ⟨[("/d", [])], []⟩ "/d" "a" (.num 1) "f" "s" .ok).1 "/d" "f").disk
        (joinPath (joinPath "/d" "f") (md5 "a")) = none :=
  ⟨rfl, rfl⟩

/-- C6 (code bug): the claim says an unlink failure is logged and swallowed
and `removeItem` still resolves. On the concrete failing input — a present
index entry whose file is already gone from disk, so `fs.unlink` rejects —
`removeItem` rejects and keeps the index entry: `_deleteFile`'s job does
`return unlink(path)` without `await`, so the rejection bypasses its
try/catch. -/
theorem removeItem_unlink_failure_bug :
    (removeItem ⟨[("/d", [(md5 "k", "/d/x")])], []⟩ "/d" "k").2 = .error .fsError
    ∧ lookupIndex (removeItem ⟨[("/d", [(md5 "k", "/d/x")])], []⟩ "/d" "k").1 "/d" (md5 "k") =
        some "/d/x" :=
  ⟨rfl, rfl⟩

/-- C3 (counterexample): two `setItem` calls for the same key completing in
submission order, the last writing the value `0`; `getItem` then returns
`null`, not the value of the last-submitted write, because `0` is falsy. -/
theorem last_write_falsy_counterexample :
    getItem (setItem (setItem ⟨[("/d", [])], []⟩ "/d" "k" (.num 1) "" "s1" .ok).1
        "/d" "k" (.num 0) "" "s2" .ok).1 "/d" "k" = Json.null
    ∧ Json.null ≠ Json.num 0 :=
  ⟨rfl, fun h => Json.noConfusion h⟩

/-- C3 (amended): the per-path Operation Queue executes same-path operations
strictly in submission order with at most one in flight, and operations on
distinct paths carry no relative ordering guarantee: for *every* execution
order `ex` whose restriction to the key's path equals the submitted order
`subs` on that path — writes to other paths interleaved arbitrarily — the
key's file afterwards holds exactly the last-submitted record (never a
partial document), and `getItem` returns the last-submitted value provided
that value is truthy (a falsy last value is read back as `null`). -/
theorem queue_fifo_last_write_wins (st : StorageState) (dir key : String)
    (ex subs : List WriteOp) (vs : List Json) (v : Json)
    (hidx : lookupIndex st dir (md5 key) = some (joinPath dir (md5 key)))
    (hfifo : writesTo ex (joinPath dir (md5 key)) = writesTo subs (joinPath dir (md5 key)))
    (hsubs : writesTo subs (joinPath dir (md5 key)) = vs.map (record key))
    (hlast : lastOf vs = some v) (htruthy : v.truthy = true) :
    getItem { st with disk := applyWrites st.disk ex } dir key = v := by
  have hdisk : assocLookup (applyWrites st.disk ex) (joinPath dir (md5 key)) =
      some (.json (record key v)) := by
    rw [applyWrites_lookup, hfifo, hsubs, lastOf_map, hlast]
    rfl
  have hidx2 : lookupIndex { st with disk := applyWrites st.disk ex } dir (md5 key) =
      some (joinPath dir (md5 key)) := hidx
  simp only [getItem, hidx2, readFile, hdisk, record_getField_value, htruthy, if_true]

/-- C3 (witness): the amended ordering theorem at two concrete writes of
`1` then `2` to the same key's path, executed in submission order. -/
theorem queue_fifo_last_write_wins_witness :
    lastOf [Json.num 1, Json.num 2] = some (.num 2)
    ∧ getItem { (⟨[("/d", [(md5 "k", joinPath "/d" (md5 "k"))])], []⟩ : StorageState) with
        disk := applyWrites []
          [(joinPath "/d" (md5 "k"), record "k" (.num 1)),
           (joinPath "/d" (md5 "k"), record "k" (.num 2))] } "/d" "k" = .num 2 :=
  ⟨rfl,
    queue_fifo_last_write_wins ⟨[("/d", [(md5 "k", joinPath "/d" (md5 "k"))])], []⟩ "/d" "k"
      [(joinPath "/d" (md5 "k"), record "k" (.num 1)),
       (joinPath "/d" (md5 "k"), record "k" (.num 2))]
      [(joinPath "/d" (md5 "k"), record "k" (.num 1)),
       (joinPath "/d" (md5 "k"), record "k" (.num 2))]
      [.num 1, .num 2] (.num 2) rfl rfl rfl rfl rfl⟩

/-- C4 (counterexample, against the spec-modelled watch layer): an external
well-formed record file with the falsy embedded value `""` is reconciled into
the Index, yet the subsequent `getItem` for its embedded key returns `null`,
not the file's value. -/
theorem watch_falsy_counterexample :
    getItem (watchAddChange ⟨[("/d", [])], [("/d/e", .json (record "k" (.str "")))]⟩
        "/d" "/d/e") "/d" "k" = Json.null
    ∧ Json.null ≠ Json.str "" :=
  ⟨rfl, fun h => Json.noConfusion h⟩

/-- C4 (amended): for every well-formed record file written directly into
the storage directory by an external actor, processing the add/change watch
event for that quiescent path upserts the Index keyed by the embedded key, so
that a subsequent `getItem` for that key returns the file's value — provided
that value is truthy (a falsy stored value is reported as not-found) —
without recreating the instance. -/
theorem watch_external_reconciliation (st : StorageState) (dir p k : String) (v : Json)
    (hmark : containsChar (basename p) TMP_MARKER = false)
    (hdisk : assocLookup st.disk p = some (.json (record k v)))
    (htruthy : v.truthy = true) :
    getItem (watchAddChange st dir p) dir k = v := by
  have hstate : watchAddChange st dir p = { st with filesMap := assocInsert st.filesMap dir (assocInsert ((assocLookup st.filesMap dir).getD []) (md5 k) p) } := by
    unfold watchAddChange
    rw [if_neg (by simp [hmark])]
    simp only [readFile, hdisk, record]
    simp [assocLookup]
  rw [hstate]
  simp only [getItem, lookupIndex, assocLookup_insert_self, readFile, hdisk,
    record_getField_value, htruthy, if_true]

/-- C4 (witness): the amended reconciliation claim at a concrete external
file `/d/e` holding the record for key `kk` with value `5`. -/
theorem watch_external_reconciliation_witness :
    containsChar (basename "/d/e") TMP_MARKER = false
    ∧ getItem (watchAddChange ⟨[("/d", [])], [("/d/e", .json (record "kk" (.num 5)))]⟩
        "/d" "/d/e") "/d" "kk" = .num 5 :=
  ⟨by decide,
    watch_external_reconciliation ⟨[("/d", [])], [("/d/e", .json (record "kk" (.num 5)))]⟩
      "/d" "/d/e" "kk" (.num 5) (by decide) rfl rfl⟩

/-- C7 (counterexample): a present key whose file decodes successfully to a
record with the falsy value `false`: `getItem` returns the not-found result
`null`, not the decoded value. -/
theorem getItem_falsy_counterexample :
    getItem ⟨[("/d", [(md5 "k", "/d/y")])], [("/d/y", .json (record "k" (.bool false)))]⟩
        "/d" "k" = Json.null
    ∧ Json.null ≠ Json.bool false :=
  ⟨rfl, fun h => Json.noConfusion h⟩

/-- C7 (amended): `getItem` never raises — it is a total function of the
state: an absent key yields the not-found result `null`; a present key whose
file is missing, unreadable or unparsable yields `null`; a successful decode
yields the decoded value when that value is truthy and `null` when it is
falsy (`getItem` returns `item?.value ? item.value : null`). -/
theorem getItem_total_behavior (st : StorageState) (dir key : String) :
    (lookupIndex st dir (md5 key) = none → getItem st dir key = Json.null)
    ∧ (∀ p, lookupIndex st dir (md5 key) = some p →
        (∀ j, assocLookup st.disk p ≠ some (.json j)) → getItem st dir key = Json.null)
    ∧ (∀ p j v, lookupIndex st dir (md5 key) = some p →
        assocLookup st.disk p = some (.json j) → j.getField "value" = some v →
        (v.truthy = true → getItem st dir key = v)
        ∧ (v.truthy = false → getItem st dir key = Json.null)) := by
  refine ⟨?_, ?_, ?_⟩
  · intro h
    simp [getItem, h]
  · intro p hp hnj
    simp only [getItem, hp]
    cases hd : assocLookup st.disk p with
    | none => simp [readFile, hd, Json.getField]
    | some fc =>
        cases fc with
        | json j => exact absurd hd (hnj j)
        | raw s => simp [readFile, hd, Json.getField]
  · intro p j v hp hd hv
    constructor
    · intro ht
      simp [getItem, hp, readFile, hd, hv, ht]
    · intro ht
      simp [getItem, hp, readFile, hd, hv, ht]

/-- C7 (witness): the amended behavior at a concrete present key whose file
decodes to the truthy value `2`. -/
theorem getItem_total_behavior_witness :
    (record "k" (.num 2)).getField "value" = some (.num 2)
    ∧ getItem ⟨[("/d", [(md5 "k", "/d/y")])], [("/d/y", .json (record "k" (.num 2)))]⟩
        "/d" "k" = .num 2 :=
  ⟨rfl,
    ((getItem_total_behavior
        ⟨[("/d", [(md5 "k", "/d/y")])], [("/d/y", .json (record "k" (.num 2)))]⟩
        "/d" "k").2.2 "/d/y" (record "k" (.num 2)) (.num 2) rfl rfl rfl).1 rfl⟩

/-- C8 (counterexample): the bootstrap scanner encounters a non-temporary
file whose content is not JSON, attempts no decode, and inserts it straight
into the Index — contradicting "a non-JSON file present at startup never
enters the Index". -/
theorem scan_indexes_undecodable_counterexample :
    assocLookup (scanTree "/d/broken" (DirTree.file "broken" (.raw "not json")) [])
      "broken" = some "/d/broken" := rfl

/-- C8 (amended): the bootstrap scanner indexes every non-temporary file by
base name with no decode attempt (so a non-JSON or key-less file does enter
the Index, with no warning logged), the scan is total and never aborts
initialization, and such files never appear in `keys()`: every key `keys()`
reports is a truthy embedded `key` field of a file on disk that decodes as
JSON. -/
theorem scan_no_decode_keys_filter :
    (∀ fullPath name c files, containsChar name TMP_MARKER = false →
        assocLookup (scanTree fullPath (DirTree.file name c) files) name = some fullPath)
    ∧ (∀ st dir k, k ∈ keysOp st dir →
        k.truthy = true ∧ ∃ p j, assocLookup st.disk p = some (FileContent.json j) ∧
          j.getField "key" = some k) := by
  constructor
  · intro fullPath name c files hm
    rw [scanTree, if_neg (by simp [hm]), assocLookup_insert_self]
  · intro st dir k hk
    simp only [keysOp, List.mem_filterMap] at hk
    obtain ⟨entry, hmem, hf⟩ := hk
    cases hg : (readFile st.disk entry.2).getField "key" with
    | none =>
        rw [hg] at hf
        exact absurd (show (none : Option Json) = some k from hf) (by simp)
    | some kk =>
        rw [hg] at hf
        have hf2 : (if kk.truthy = true then some kk else none) = some k := hf
        by_cases ht : kk.truthy
        · rw [if_pos ht] at hf2
          obtain rfl : kk = k := by injection hf2
          refine ⟨ht, ?_⟩
          cases hd : assocLookup st.disk entry.2 with
          | none =>
              rw [show readFile st.disk entry.2 = Json.null by simp [readFile, hd]] at hg
              exact absurd hg (by simp [Json.getField])
          | some fc =>
              cases fc with
              | json j =>
                  refine ⟨entry.2, j, hd, ?_⟩
                  rw [show readFile st.disk entry.2 = j by simp [readFile, hd]] at hg
                  exact hg
              | raw s =>
                  rw [show readFile st.disk entry.2 = Json.null by simp [readFile, hd]] at hg
                  exact absurd hg (by simp [Json.getField])
        · rw [if_neg ht] at hf2
          exact absurd hf2 (by simp)

/-- C8 (witness): the amended scanner behavior at a concrete non-temporary,
non-JSON file: it is indexed without decoding. -/
theorem scan_no_decode_keys_filter_witness :
    containsChar "broken" TMP_MARKER = false
    ∧ assocLookup (scanTree "/d/broken" (DirTree.file "broken" (.raw "nope")) [])
        "broken" = some "/d/broken" :=
  ⟨by decide, scan_no_decode_keys_filter.1 "/d/broken" "broken" (.raw "nope") [] (by decide)⟩

/-- C9 (code bug): the claim (and the README, which documents
`keys(folder)` with scoped output) says `keys` returns keys scoped by
path-prefix match on the folder argument out of the cached Index without
touching disk. The source's `keys` takes no folder parameter at all (an
argument is ignored), asynchronously reads every indexed file from disk, and
returns embedded keys from all folders: after `setItem('a','x',folder 'f')`
and `setItem('b','y')` it returns both keys — so a `keys('f')` call includes
`'b'` stored outside `'f'` — and its output tracks disk contents, not the
cached Index: corrupting the stored file of `'a'` on disk (with the Index
unchanged) drops `'a'` from the result. -/
theorem keys_unscoped_disk_read_bug :
    keysOp (setItem (setItem ⟨[("/d", [])], []⟩ "/d" "a" (.str "x") "f" "s1" .ok).1
        "/d" "b" (.str "y") "" "s2" .ok).1 "/d" = [.str "a", .str "b"]
    ∧ keysOp { (setItem (setItem ⟨[("/d", [])], []⟩ "/d" "a" (.str "x") "f" "s1" .ok).1
          "/d" "b" (.str "y") "" "s2" .ok).1 with
        disk := assocInsert
          (setItem (setItem ⟨[("/d", [])], []⟩ "/d" "a" (.str "x") "f" "s1" .ok).1
            "/d" "b" (.str "y") "" "s2" .ok).1.disk
          (joinPath (joinPath "/d" "f") (md5 "a")) (.raw "junk") } "/d" = [.str "b"] :=
  ⟨rfl, rfl⟩

/-- C10 (confirmed): the reserved temporary marker is the single character
`T`; the scanner skips every file whose base name contains it (and any index
entry the scan adds is for a marker-free name); `md5` digests are
32-character lowercase hexadecimal strings, so both the index name and the
base name of every path `setItem` stores are free of `T`; and the
(spec-modelled) watch layer ignores any path whose base name contains the
marker, so an externally created record file with `T` in its name is never
indexed. -/
theorem tmp_marker_never_indexed :
    (∀ fullPath name c files, containsChar name TMP_MARKER = true →
        scanTree fullPath (DirTree.file name c) files = files)
    ∧ (∀ fullPath t files n p, assocLookup (scanTree fullPath t files) n = some p →
        assocLookup files n = some p ∨ containsChar n TMP_MARKER = false)
    ∧ (∀ key, containsChar (md5 key) TMP_MARKER = false)
    ∧ (∀ dir folder key, basename (joinPath (joinPath dir folder) (md5 key)) = md5 key)
    ∧ (∀ st dir p, containsChar (basename p) TMP_MARKER = true →
        watchAddChange st dir p = st) := by
  refine ⟨?_, ?_, ?_, ?_, ?_⟩
  · intro fullPath name c files hm
    rw [scanTree, if_pos hm]
  · exact fun fullPath t files n p h => scanTree_lookup fullPath t files n p h
  · exact md5_not_contains_marker
  · intro dir folder key
    unfold joinPath
    rw [if_neg (md5_ne_empty key)]
    exact basename_append _ _ (md5_no_slash key)
  · intro st dir p hm
    unfold watchAddChange
    rw [if_pos hm]

/-- C10 (witness): a concrete file whose name contains the marker is skipped
by the scanner. -/
theorem tmp_marker_never_indexed_witness :
    containsChar "xTy" TMP_MARKER = true
    ∧ scanTree "/d/xTy" (DirTree.file "xTy" (.raw "z")) [] = [] :=
  ⟨by decide, tmp_marker_never_indexed.1 "/d/xTy" "xTy" (.raw "z") [] (by decide)⟩

end Storage
